import Mathlib

/-!
A verification development for the reactive derived-state core of the
fiftyone app state package.  Selector bodies (`groupSlice`, `hasGroupSlices`,
`isGroup`, the `groupSlice` setter, `lightningStringResults`, the
`useUpdateSamples` patch) are embedded from
`src/app/packages/state/src/recoil/groups.ts`,
`src/app/packages/state/src/recoil/pathData/lightningString.ts` and
`src/app/packages/state/src/hooks/useUpdateSamples.ts`.
The generic engine pieces (batched dirty-marking, family cache, resolver
bridge, persistence effects) live in the Recoil / Relay libraries, which are
not part of this repository; those are modelled from the spec, as noted on
each definition.
-/

namespace FOState

/-- The upstream cells read or written by the group selectors of
`groups.ts`.  `mediaType`, `similarityParameters`, `selectedLabels` and
`selectedSamples` are atoms from `atoms.ts`; `sessionGroupSlice` is a session
atom defaulting to `null`; `defaultGroupSlice` is a sync-fragment atom;
`isDynamicGroup` and `parentMediaType` stand for the upstream state that the
`isDynamicGroup` and `parentMediaTypeSelector` reads resolve to.  JS
`string | null` values are `Option String`; a selected-samples `Set` is a
list of ids. -/
structure CellState where
  mediaType : Option String
  isDynamicGroup : Bool
  parentMediaType : Option String
  sessionGroupSlice : Option String
  defaultGroupSlice : Option String
  similarityParameters : Option String
  selectedLabels : List String
  selectedSamples : List String
deriving DecidableEq, Repr

/-- `isGroup` selector: `get(mediaType) === "group"`. -/
def isGroup (s : CellState) : Bool :=
  s.mediaType == some "group"

/-- `hasGroupSlices` selector:
`get(isGroup) && (!get(isDynamicGroup) || get(parentMediaTypeSelector) === "group")`. -/
def hasGroupSlices (s : CellState) : Bool :=
  isGroup s && (!s.isDynamicGroup || s.parentMediaType == some "group")

/-- JS `a || b` on `string | null` operands: `null` and `""` are falsy. -/
def jsOrStr (a b : Option String) : Option String :=
  match a with
  | some v => if v = "" then b else some v
  | none => b

/-- The `groupSlice` selector getter:
`get(isGroup) && get(hasGroupSlices) ? get(sessionGroupSlice) || get(defaultGroupSlice) : null`. -/
def groupSliceGet (s : CellState) : Option String :=
  if isGroup s && hasGroupSlices s then
    jsOrStr s.sessionGroupSlice s.defaultGroupSlice
  else
    none

/-- A single cell write, one constructor per writable cell. -/
inductive CellWrite where
  | mediaType (v : Option String)
  | isDynamicGroup (v : Bool)
  | parentMediaType (v : Option String)
  | sessionGroupSlice (v : Option String)
  | defaultGroupSlice (v : Option String)
  | similarityParameters (v : Option String)
  | selectedLabels (v : List String)
  | selectedSamples (v : List String)
deriving DecidableEq, Repr

/-- Apply a write to the stored cell values. -/
def applyWrite (w : CellWrite) (s : CellState) : CellState :=
  match w with
  | .mediaType v => { s with mediaType := v }
  | .isDynamicGroup v => { s with isDynamicGroup := v }
  | .parentMediaType v => { s with parentMediaType := v }
  | .sessionGroupSlice v => { s with sessionGroupSlice := v }
  | .defaultGroupSlice v => { s with defaultGroupSlice := v }
  | .similarityParameters v => { s with similarityParameters := v }
  | .selectedLabels v => { s with selectedLabels := v }
  | .selectedSamples v => { s with selectedSamples := v }

/-- Whether a write targets a cell that the `groupSlice` derivation reads
(directly or through `isGroup` / `hasGroupSlices`). -/
def touchesGroupSliceDeps (w : CellWrite) : Bool :=
  match w with
  | .similarityParameters _ => false
  | .selectedLabels _ => false
  | .selectedSamples _ => false
  | _ => true

/-- Modelled from the spec: the dependency-graph engine state for the
`groupSlice` derivation (the engine itself is the Recoil library, not in
this repository).  `groupSliceCache = some v` is a clean memoized value,
`none` is dirty/uncomputed. -/
structure Engine where
  cells : CellState
  groupSliceCache : Option (Option String)
deriving DecidableEq, Repr

/-- Modelled from the spec: `write(cell, value)` — skipped when the new
value equals the current one under the equality comparator, otherwise the
stored value is updated and every dependent derivation is marked dirty.
Dirty-marking never recomputes anything. -/
def writeCell (e : Engine) (w : CellWrite) : Engine :=
  if applyWrite w e.cells = e.cells then
    e
  else
    { cells := applyWrite w e.cells
      groupSliceCache :=
        if touchesGroupSliceDeps w then none else e.groupSliceCache }

/-- Modelled from the spec: a batch of writes is applied in full —
dirty-marking for the whole batch completes — before any dependent
recompute is allowed to run. -/
def applyBatch (e : Engine) (ws : List CellWrite) : Engine :=
  ws.foldl writeCell e

/-- Modelled from the spec: `read(node)` — return the memoized value when
clean, otherwise recompute from the current cell values and cache the
result. -/
def readGroupSlice (e : Engine) : Option String × Engine :=
  match e.groupSliceCache with
  | some v => (v, e)
  | none =>
    let v := groupSliceGet e.cells
    (v, { e with groupSliceCache := some v })

/-- Cache coherence: a clean cached value agrees with a pure evaluation of
the derivation body on the current cell values. -/
def wellFormed (e : Engine) : Prop :=
  ∀ v, e.groupSliceCache = some v → v = groupSliceGet e.cells

theorem writeCell_cells (e : Engine) (w : CellWrite) :
    (writeCell e w).cells = applyWrite w e.cells := by
  unfold writeCell
  split
  · next h => exact h.symm
  · rfl

theorem writeCell_cache_none (e : Engine) (w : CellWrite)
    (h : e.groupSliceCache = none) :
    (writeCell e w).groupSliceCache = none := by
  unfold writeCell
  split
  · exact h
  · by_cases ht : touchesGroupSliceDeps w = true
    · simp [ht]
    · simp [ht, h]

theorem applyBatch_cells (e : Engine) (ws : List CellWrite) :
    (applyBatch e ws).cells = ws.foldl (fun s w => applyWrite w s) e.cells := by
  induction ws generalizing e with
  | nil => rfl
  | cons w ws ih =>
    simp only [applyBatch, List.foldl_cons] at *
    rw [ih, writeCell_cells]

theorem applyBatch_cache_none (e : Engine) (ws : List CellWrite)
    (h : e.groupSliceCache = none) :
    (applyBatch e ws).groupSliceCache = none := by
  induction ws generalizing e with
  | nil => exact h
  | cons w ws ih =>
    simp only [applyBatch, List.foldl_cons] at *
    exact ih _ (writeCell_cache_none _ _ h)

/-- The concrete batch of the spec scenario: `isGroup=true` is a write of
`mediaType="group"` (the cell `isGroup` reads), `hasGroupSlices=true` is a
write of `isDynamicGroup=false` (given `isGroup`, that makes
`hasGroupSlices` true), plus `sessionGroupSlice="left"`. -/
def scenarioBatch : List CellWrite :=
  [.mediaType (some "group"), .isDynamicGroup false,
   .sessionGroupSlice (some "left")]

theorem groupSliceGet_not_group (s : CellState) (h : isGroup s = false) :
    groupSliceGet s = none := by
  simp [groupSliceGet, h]

/-- The `groupSlice` setter argument: a Recoil `DefaultValue` instance or a
slice value (`string | null`). -/
inductive SliceArg where
  | dflt
  | val (v : Option String)
deriving DecidableEq, Repr

/-- The value the setter stores into `sessionGroupSlice`:
`get(defaultGroupSlice) === slice ? new DefaultValue() : slice`, where
writing a `DefaultValue` to the session atom resets it to its `null`
default, and a `DefaultValue` argument is never `===` the current default. -/
def setterSessionValue (s : CellState) (arg : SliceArg) : Option String :=
  match arg with
  | .dflt => none
  | .val v => if s.defaultGroupSlice == v then none else v

/-- The upstream cell writes issued by the `groupSlice` setter
(`groups.ts` lines 154–177).  When `similarityParameters` is unset:
`set(sessionGroupSlice, …)`, `set(selectedLabels, [])`,
`set(selectedSamples, new Set())`.  Otherwise the session subscription
applies the same session writes and `reset(similarityParameters)`. -/
def groupSliceSetWrites (s : CellState) (arg : SliceArg) : List CellWrite :=
  if s.similarityParameters = none then
    [.sessionGroupSlice (setterSessionValue s arg)
     , .selectedLabels []
     , .selectedSamples []]
  else
    [.sessionGroupSlice (match arg with | .dflt => none | .val v => v)
     , .selectedSamples []
     , .selectedLabels []
     , .similarityParameters none]

end FOState

open FOState in
/-- C1: from a well-formed engine state in which the `isGroup` cell is
false, reading `groupSlice` yields `null`; after the batch writing
`isGroup=true` (`mediaType="group"`), `hasGroupSlices=true`
(`isDynamicGroup=false`) and `sessionGroupSlice="left"`, a read of
`groupSlice` is a single recompute over the fully-applied batch — it equals
the pure evaluation of the selector body on the post-batch cell values and
yields `"left"`, never a transient `null`. -/
theorem groupSlice_batch_consistency (e : Engine)
    (hwf : wellFormed e) (hg : isGroup e.cells = false) :
    (readGroupSlice e).1 = none ∧
    (readGroupSlice (applyBatch (readGroupSlice e).2 scenarioBatch)).1
      = groupSliceGet (applyBatch (readGroupSlice e).2 scenarioBatch).cells ∧
    (readGroupSlice (applyBatch (readGroupSlice e).2 scenarioBatch)).1
      = some "left" := by
  obtain ⟨c, cache⟩ := e
  simp only at hg
  have hpure : groupSliceGet c = none := groupSliceGet_not_group c hg
  have hread : readGroupSlice ⟨c, cache⟩ = (none, ⟨c, some none⟩) := by
    cases cache with
    | none => simp [readGroupSlice, hpure]
    | some v =>
      have hv : v = groupSliceGet c := hwf v rfl
      rw [hpure] at hv
      subst hv
      rfl
  rw [hread]
  have hm : c.mediaType ≠ some "group" := by
    simpa [isGroup] using hg
  have hne : ({ c with mediaType := some "group" } : CellState) ≠ c := by
    intro h
    exact hm ((congrArg CellState.mediaType h).symm)
  have hw1 : writeCell ⟨c, some none⟩ (.mediaType (some "group"))
      = ⟨{ c with mediaType := some "group" }, none⟩ := by
    simp [writeCell, hne, touchesGroupSliceDeps, applyWrite]
  have hbatch : applyBatch (⟨c, some none⟩ : Engine) scenarioBatch
      = applyBatch ⟨{ c with mediaType := some "group" }, none⟩
          [.isDynamicGroup false, .sessionGroupSlice (some "left")] := by
    simp only [scenarioBatch, applyBatch, List.foldl_cons, hw1]
  rw [hbatch]
  have hcache :
      (applyBatch (⟨{ c with mediaType := some "group" }, none⟩ : Engine)
        [.isDynamicGroup false, .sessionGroupSlice (some "left")]).groupSliceCache
      = none :=
    applyBatch_cache_none _ _ rfl
  have hcells :
      (applyBatch (⟨{ c with mediaType := some "group" }, none⟩ : Engine)
        [.isDynamicGroup false, .sessionGroupSlice (some "left")]).cells
      = { c with
            mediaType := some "group"
            isDynamicGroup := false
            sessionGroupSlice := some "left" } := by
    rw [applyBatch_cells]
    rfl
  refine ⟨rfl, ?_, ?_⟩
  · simp [readGroupSlice, hcache]
  · simp [readGroupSlice, hcache, hcells, groupSliceGet, isGroup,
      hasGroupSlices, jsOrStr]

open FOState in
/-- Witness for C1 at a concrete initial engine state. -/
theorem groupSlice_batch_consistency_witness :
    (readGroupSlice ⟨⟨none, false, none, none, none, none, [], []⟩, none⟩).1
      = none ∧
    (readGroupSlice (applyBatch
        (readGroupSlice
          ⟨⟨none, false, none, none, none, none, [], []⟩, none⟩).2
        scenarioBatch)).1
      = groupSliceGet (applyBatch
          (readGroupSlice
            ⟨⟨none, false, none, none, none, none, [], []⟩, none⟩).2
          scenarioBatch).cells ∧
    (readGroupSlice (applyBatch
        (readGroupSlice
          ⟨⟨none, false, none, none, none, none, [], []⟩, none⟩).2
        scenarioBatch)).1
      = some "left" :=
  groupSlice_batch_consistency _ (fun v h => by cases h) (by decide)

open FOState in
/-- C7: a cell write whose value equals the current one under the equality
comparator is skipped: the engine state is unchanged, no dependent is
marked dirty, and a subsequent read of the dependent `groupSlice`
derivation is unaffected (no recompute is caused by the write). -/
theorem write_equal_value_no_dirty (e : Engine) (w : CellWrite)
    (h : applyWrite w e.cells = e.cells) :
    writeCell e w = e ∧
    (writeCell e w).groupSliceCache = e.groupSliceCache ∧
    readGroupSlice (writeCell e w) = readGroupSlice e := by
  have h1 : writeCell e w = e := by simp [writeCell, h]
  exact ⟨h1, by rw [h1], by rw [h1]⟩

open FOState in
/-- Witness for C7: writing `isDynamicGroup := false` when it is already
`false`. -/
theorem write_equal_value_no_dirty_witness :
    writeCell ⟨⟨none, false, none, none, none, none, [], []⟩, some none⟩
        (.isDynamicGroup false)
      = ⟨⟨none, false, none, none, none, none, [], []⟩, some none⟩ ∧
    (writeCell ⟨⟨none, false, none, none, none, none, [], []⟩, some none⟩
        (.isDynamicGroup false)).groupSliceCache
      = (⟨⟨none, false, none, none, none, none, [], []⟩, some none⟩
          : Engine).groupSliceCache ∧
    readGroupSlice
        (writeCell ⟨⟨none, false, none, none, none, none, [], []⟩, some none⟩
          (.isDynamicGroup false))
      = readGroupSlice
          ⟨⟨none, false, none, none, none, none, [], []⟩, some none⟩ :=
  write_equal_value_no_dirty _ _ (by decide)

open FOState in
/-- C5: when `similarityParameters` is unset, the `groupSlice` setter maps
the supplied value to a deterministic batch of upstream cell writes:
`sessionGroupSlice` receives the supplied slice, or is reset to its `null`
default when the slice equals `defaultGroupSlice` (or is itself a
`DefaultValue`); `selectedLabels` becomes `[]` and `selectedSamples`
becomes the empty set; every other cell is left untouched.  The writes go
through the engine's batch application. -/
theorem groupSlice_setter_writes (e : Engine) (arg : SliceArg)
    (h : e.cells.similarityParameters = none) :
    (applyBatch e (groupSliceSetWrites e.cells arg)).cells.sessionGroupSlice
      = setterSessionValue e.cells arg ∧
    (applyBatch e (groupSliceSetWrites e.cells arg)).cells.selectedLabels
      = [] ∧
    (applyBatch e (groupSliceSetWrites e.cells arg)).cells.selectedSamples
      = [] ∧
    (applyBatch e (groupSliceSetWrites e.cells arg)).cells.mediaType
      = e.cells.mediaType ∧
    (applyBatch e (groupSliceSetWrites e.cells arg)).cells.isDynamicGroup
      = e.cells.isDynamicGroup ∧
    (applyBatch e (groupSliceSetWrites e.cells arg)).cells.parentMediaType
      = e.cells.parentMediaType ∧
    (applyBatch e (groupSliceSetWrites e.cells arg)).cells.defaultGroupSlice
      = e.cells.defaultGroupSlice ∧
    (applyBatch e (groupSliceSetWrites e.cells arg)).cells.similarityParameters
      = e.cells.similarityParameters := by
  simp [applyBatch_cells, groupSliceSetWrites, h, applyWrite]

open FOState in
/-- Witness for C5: setting slice `"left"` with default `"center"` and no
similarity parameters. -/
theorem groupSlice_setter_writes_witness :
    (applyBatch ⟨⟨none, false, none, none, some "center", none, ["l1"], ["s1"]⟩, none⟩
        (groupSliceSetWrites
          ⟨none, false, none, none, some "center", none, ["l1"], ["s1"]⟩
          (.val (some "left")))).cells.sessionGroupSlice
      = setterSessionValue
          ⟨none, false, none, none, some "center", none, ["l1"], ["s1"]⟩
          (.val (some "left")) ∧
    (applyBatch ⟨⟨none, false, none, none, some "center", none, ["l1"], ["s1"]⟩, none⟩
        (groupSliceSetWrites
          ⟨none, false, none, none, some "center", none, ["l1"], ["s1"]⟩
          (.val (some "left")))).cells.selectedLabels
      = [] ∧
    (applyBatch ⟨⟨none, false, none, none, some "center", none, ["l1"], ["s1"]⟩, none⟩
        (groupSliceSetWrites
          ⟨none, false, none, none, some "center", none, ["l1"], ["s1"]⟩
          (.val (some "left")))).cells.selectedSamples
      = [] ∧
    (applyBatch ⟨⟨none, false, none, none, some "center", none, ["l1"], ["s1"]⟩, none⟩
        (groupSliceSetWrites
          ⟨none, false, none, none, some "center", none, ["l1"], ["s1"]⟩
          (.val (some "left")))).cells.mediaType
      = (⟨none, false, none, none, some "center", none, ["l1"], ["s1"]⟩
          : CellState).mediaType ∧
    (applyBatch ⟨⟨none, false, none, none, some "center", none, ["l1"], ["s1"]⟩, none⟩
        (groupSliceSetWrites
          ⟨none, false, none, none, some "center", none, ["l1"], ["s1"]⟩
          (.val (some "left")))).cells.isDynamicGroup
      = (⟨none, false, none, none, some "center", none, ["l1"], ["s1"]⟩
          : CellState).isDynamicGroup ∧
    (applyBatch ⟨⟨none, false, none, none, some "center", none, ["l1"], ["s1"]⟩, none⟩
        (groupSliceSetWrites
          ⟨none, false, none, none, some "center", none, ["l1"], ["s1"]⟩
          (.val (some "left")))).cells.parentMediaType
      = (⟨none, false, none, none, some "center", none, ["l1"], ["s1"]⟩
          : CellState).parentMediaType ∧
    (applyBatch ⟨⟨none, false, none, none, some "center", none, ["l1"], ["s1"]⟩, none⟩
        (groupSliceSetWrites
          ⟨none, false, none, none, some "center", none, ["l1"], ["s1"]⟩
          (.val (some "left")))).cells.defaultGroupSlice
      = (⟨none, false, none, none, some "center", none, ["l1"], ["s1"]⟩
          : CellState).defaultGroupSlice ∧
    (applyBatch ⟨⟨none, false, none, none, some "center", none, ["l1"], ["s1"]⟩, none⟩
        (groupSliceSetWrites
          ⟨none, false, none, none, some "center", none, ["l1"], ["s1"]⟩
          (.val (some "left")))).cells.similarityParameters
      = (⟨none, false, none, none, some "center", none, ["l1"], ["s1"]⟩
          : CellState).similarityParameters :=
  groupSlice_setter_writes _ _ (by decide)

namespace FOState

/-- The resolved lightning query result read by `lightningStringResults`
(`lightningString.ts`): the GraphQL `__typename` discriminant and the
optional `values` field. -/
structure LightningResult where
  __typename : String
  values : Option (List String)
deriving DecidableEq, Repr

/-- The error thrown by `lightningStringResults` for an unexpected result
type, carrying the offending typename and the requested path. -/
inductive LightningError where
  | unexpectedTypename (typename : String) (path : String)
deriving DecidableEq, Repr

/-- The `lightningStringResults` family body: throw unless the result is a
`StringLightningResult` or `ObjectIdLightningResult`; return `null` when
`values` is absent; otherwise return a copy `[...data.values]` of the
values array. -/
def lightningStringResultsGet (path : String) (data : LightningResult) :
    Except LightningError (Option (List String)) :=
  if data.__typename ≠ "StringLightningResult" ∧
      data.__typename ≠ "ObjectIdLightningResult" then
    .error (.unexpectedTypename data.__typename path)
  else
    match data.values with
    | none => .ok none
    | some vs => .ok (some (vs.map id))

/-- A serializable family parameter value (Recoil `SerializableParam`):
JSON-like values with nested containers. -/
inductive SParam where
  | null
  | bool (b : Bool)
  | num (n : Int)
  | str (s : String)
  | arr (xs : List SParam)
  | obj (fields : List (String × SParam))
deriving Repr

mutual
/-- Modelled from the spec: the stable canonicalization of a parameter
value into a cache key (the Recoil family cache serializes parameters to a
stable string; that code is not in this repository). -/
def SParam.canon : SParam → String
  | .null => "null"
  | .bool b => if b then "true" else "false"
  | .num n => toString n
  | .str s => "s:" ++ s
  | .arr xs => "[" ++ SParam.canonList xs ++ "]"
  | .obj fs => "\x7b" ++ SParam.canonFields fs ++ "\x7d"

/-- Canonicalization of an array's elements. -/
def SParam.canonList : List SParam → String
  | [] => ""
  | x :: xs => SParam.canon x ++ "," ++ SParam.canonList xs

/-- Canonicalization of an object's fields. -/
def SParam.canonFields : List (String × SParam) → String
  | [] => ""
  | (k, v) :: fs => k ++ ":" ++ SParam.canon v ++ ";" ++ SParam.canonFields fs
end

/-- The parameter record of the `lightningStringResults` family
(`lightningString.ts`): `path`, optional `exclude`, the serializable
`filters`, optional `index`, `search` and `maxDocumentsSearch`. -/
structure LightningStringParams where
  path : String
  exclude : Option (List String)
  filters : SParam
  index : Option String
  search : Option String
  maxDocumentsSearch : Option Nat
deriving Repr

/-- Canonicalize an optional component. -/
def optCanon (f : α → String) : Option α → String
  | none => "undefined"
  | some a => f a

/-- Modelled from the spec: canonicalization of the whole parameter record. -/
def LightningStringParams.canon (p : LightningStringParams) : String :=
  "path:" ++ p.path
    ++ ";exclude:" ++ optCanon (String.intercalate ",") p.exclude
    ++ ";filters:" ++ p.filters.canon
    ++ ";index:" ++ optCanon id p.index
    ++ ";search:" ++ optCanon id p.search
    ++ ";max:" ++ optCanon toString p.maxDocumentsSearch

/-- Modelled from the spec: the keyed family cache — a mapping from
canonical key to the live derivation instance (identified by a numeric id,
standing for reference identity), plus a counter of underlying
computations; a computation runs exactly when a new instance is
constructed. -/
structure FamilyCache where
  entries : List (String × Nat)
  nextId : Nat
  computeCount : Nat
deriving DecidableEq, Repr

/-- Association-list lookup for the family cache. -/
def lookupKey : List (String × Nat) → String → Option Nat
  | [], _ => none
  | (k, i) :: rest, key => if k = key then some i else lookupKey rest key

/-- Modelled from the spec: `get(paramValue)` canonicalizes the parameter
and returns the existing live instance for that key, or lazily constructs,
registers and computes a new one. -/
def famGet (fc : FamilyCache) (key : String) : Nat × FamilyCache :=
  match lookupKey fc.entries key with
  | some i => (i, fc)
  | none =>
    (fc.nextId,
     { entries := (key, fc.nextId) :: fc.entries
       nextId := fc.nextId + 1
       computeCount := fc.computeCount + 1 })

/-- A `lightningStringResults(params)` family access. -/
def lightningGet (fc : FamilyCache) (p : LightningStringParams) :
    Nat × FamilyCache :=
  famGet fc p.canon

end FOState

open FOState in
/-- C2: structurally equal parameter values (equality of the parameter
record, nested containers included) passed to the family return the
identical live instance, the second access leaves the cache untouched, and
two successive accesses for a previously-unseen key trigger exactly one
underlying computation. -/
theorem family_structural_key_single_instance (fc : FamilyCache)
    (p1 p2 : LightningStringParams) (h : p1 = p2) :
    (lightningGet (lightningGet fc p1).2 p2).1 = (lightningGet fc p1).1 ∧
    (lightningGet (lightningGet fc p1).2 p2).2 = (lightningGet fc p1).2 ∧
    (lookupKey fc.entries p1.canon = none →
      (lightningGet fc p1).2.computeCount = fc.computeCount + 1) ∧
    (lightningGet (lightningGet fc p1).2 p2).2.computeCount
      = (lightningGet fc p1).2.computeCount := by
  subst h
  unfold lightningGet famGet
  cases hk : lookupKey fc.entries p1.canon with
  | some i => simp [hk]
  | none => simp [hk, lookupKey]

open FOState in
/-- Witness for C2: two freshly-constructed, content-equal parameter
records with a nested object filter against an empty cache share one
instance and cause one computation. -/
theorem family_structural_key_single_instance_witness :
    (lightningGet
        (lightningGet ⟨[], 0, 0⟩
          ⟨"tags", some ["a"], .obj [("f", .arr [.num 1, .str "x"])],
            none, some "qu", some 10⟩).2
        ⟨"tags", some ["a"], .obj [("f", .arr [.num 1, .str "x"])],
          none, some "qu", some 10⟩).1
      = (lightningGet ⟨[], 0, 0⟩
          ⟨"tags", some ["a"], .obj [("f", .arr [.num 1, .str "x"])],
            none, some "qu", some 10⟩).1 ∧
    (lightningGet ⟨[], 0, 0⟩
        ⟨"tags", some ["a"], .obj [("f", .arr [.num 1, .str "x"])],
          none, some "qu", some 10⟩).2.computeCount
      = (0 : Nat) + 1 :=
  ⟨(family_structural_key_single_instance ⟨[], 0, 0⟩ _ _ rfl).1,
   (family_structural_key_single_instance ⟨[], 0, 0⟩ _ _ rfl).2.2.1 rfl⟩

open FOState in
/-- C10: `lightningStringResults` errors exactly when the resolved result's
`__typename` is neither `StringLightningResult` nor
`ObjectIdLightningResult` (the error carrying that typename and the path);
for a matching typename it returns `null` when the `values` field is
absent, and otherwise a copy of the values array with the same contents. -/
theorem lightningStringResults_behavior (path : String)
    (data : LightningResult) :
    (data.__typename ≠ "StringLightningResult" ∧
        data.__typename ≠ "ObjectIdLightningResult" →
      lightningStringResultsGet path data
        = .error (.unexpectedTypename data.__typename path)) ∧
    (data.__typename = "StringLightningResult" ∨
        data.__typename = "ObjectIdLightningResult" →
      (data.values = none →
        lightningStringResultsGet path data = .ok none) ∧
      (∀ vs, data.values = some vs →
        lightningStringResultsGet path data = .ok (some vs))) := by
  constructor
  · intro h
    simp [lightningStringResultsGet, h.1, h.2]
  · intro h
    have hok : ¬(data.__typename ≠ "StringLightningResult" ∧
        data.__typename ≠ "ObjectIdLightningResult") := by
      rcases h with h | h <;> simp [h]
    constructor
    · intro hv
      simp [lightningStringResultsGet, hok, hv]
    · intro vs hv
      simp [lightningStringResultsGet, hok, hv]

open FOState in
/-- Witness for C10: an unexpected `IntLightningResult` errors, and a
`StringLightningResult` with present values returns their copy. -/
theorem lightningStringResults_behavior_witness :
    lightningStringResultsGet "ground_truth"
        ⟨"IntLightningResult", some ["a"]⟩
      = .error (.unexpectedTypename "IntLightningResult" "ground_truth") ∧
    lightningStringResultsGet "tags" ⟨"StringLightningResult", some ["a", "b"]⟩
      = .ok (some ["a", "b"]) :=
  ⟨(lightningStringResults_behavior "ground_truth"
      ⟨"IntLightningResult", some ["a"]⟩).1 (by decide),
   ((lightningStringResults_behavior "tags"
      ⟨"StringLightningResult", some ["a", "b"]⟩).2 (Or.inl rfl)).2
      ["a", "b"] rfl⟩

namespace FOState

/-- Modelled from the spec: a Resolver Bridge entry for one request
descriptor (operation, variables).  It holds a generation counter for
supersession detection: `latest` is the generation of the most recently
issued request; `result` records which generation produced the cached
value. -/
structure BridgeEntry where
  nextGen : Nat
  latest : Nat
  result : Option (Nat × String)
deriving DecidableEq, Repr

/-- Modelled from the spec: issuing a request for the descriptor returns
the new request's generation and marks it as the most recent. -/
def issueRequest (e : BridgeEntry) : Nat × BridgeEntry :=
  (e.nextGen, { e with nextGen := e.nextGen + 1, latest := e.nextGen })

/-- Modelled from the spec: an external response for the request of
generation `gen` arrives.  A response from a superseded request — any
request that is no longer the most recently issued one — is discarded; the
current request's response is cached. -/
def resolveResponse (e : BridgeEntry) (gen : Nat) (v : String) : BridgeEntry :=
  if gen = e.latest then { e with result := some (gen, v) } else e

end FOState

open FOState in
/-- C3: if R1 is issued and then R2 is issued for the same descriptor
before R1 resolves, the cache ultimately holds R2's result whichever order
the external responses arrive in, and R1's stale response never overwrites
a cache entry already updated by R2. -/
theorem resolver_supersession (e : BridgeEntry) (v1 v2 : String) :
    (resolveResponse
        (resolveResponse (issueRequest (issueRequest e).2).2
          (issueRequest e).1 v1)
        (issueRequest (issueRequest e).2).1 v2).result
      = some ((issueRequest (issueRequest e).2).1, v2) ∧
    (resolveResponse
        (resolveResponse (issueRequest (issueRequest e).2).2
          (issueRequest (issueRequest e).2).1 v2)
        (issueRequest e).1 v1).result
      = some ((issueRequest (issueRequest e).2).1, v2) := by
  unfold issueRequest resolveResponse
  simp [Nat.ne_of_lt (Nat.lt_succ_self e.nextGen)]

namespace FOState

/-- Fields of a canonical record: an association list from field name to
(serialized) value, first match wins, mirroring unique JS object keys. -/
def getField : List (String × String) → String → Option String
  | [], _ => none
  | (g, w) :: rest, f => if g = f then some w else getField rest f

/-- `{ ...record, field: value }`: replace the field in place, appending a
new one when absent; all other fields keep their values. -/
def setField : List (String × String) → String → String → List (String × String)
  | [], f, v => [(f, v)]
  | (g, w) :: rest, f, v =>
    if g = f then (f, v) :: rest else (g, w) :: setField rest f v

/-- The canonical record store: entity id to its normalized fields
(`useUpdateSamples` keys the looker/Relay stores by sample id). -/
def lookupRecord : List (String × List (String × String)) → String →
    Option (List (String × String))
  | [], _ => none
  | (i, r) :: rest, id => if i = id then some r else lookupRecord rest id

/-- Replace the fields of the record with the given id. -/
def updateRecord : List (String × List (String × String)) → String →
    List (String × String) → List (String × List (String × String))
  | [], _, _ => []
  | (i, r) :: rest, id, fs =>
    if i = id then (id, fs) :: rest else (i, r) :: updateRecord rest id fs

/-- Modelled from the spec: a resolved derivation's cache entry in the
Resolver Bridge — the set of (record id, field) pairs it read, and its
memoized value (`none` = invalidated). -/
structure DerivEntry where
  reads : List (String × String)
  cached : Option String
deriving DecidableEq, Repr

/-- Modelled from the spec: the bridge state — the shared canonical record
store plus the resolved derivation caches. -/
structure BridgeStore where
  records : List (String × List (String × String))
  derivs : List DerivEntry
deriving DecidableEq, Repr

/-- Mark dirty exactly the derivations that read the patched field. -/
def invalidateReaders (ds : List DerivEntry) (id f : String) :
    List DerivEntry :=
  ds.map fun d => if (id, f) ∈ d.reads then { d with cached := none } else d

/-- Modelled from the spec, with the guards of `useUpdateSamples`:
`patch(recordId, field, value)` — when the record exists, update that one
field (`{ ...record, sample }` keeps every other field) and invalidate
every derivation that read it; when the record is unknown
(`if (record)` fails), do nothing. -/
def patchRecord (b : BridgeStore) (id f v : String) : BridgeStore :=
  match lookupRecord b.records id with
  | none => b
  | some fs =>
    { records := updateRecord b.records id (setField fs f v)
      derivs := invalidateReaders b.derivs id f }

theorem getField_setField_same (fs : List (String × String)) (f v : String) :
    getField (setField fs f v) f = some v := by
  induction fs with
  | nil => simp [setField, getField]
  | cons p rest ih =>
    obtain ⟨g, w⟩ := p
    by_cases h : g = f
    · simp [setField, getField, h]
    · simp [setField, getField, h, ih]

theorem getField_setField_other (fs : List (String × String)) (f v g : String)
    (hne : g ≠ f) :
    getField (setField fs f v) g = getField fs g := by
  induction fs with
  | nil => simp [setField, getField, hne, Ne.symm hne]
  | cons p rest ih =>
    obtain ⟨k, w⟩ := p
    by_cases h : k = f
    · subst h
      simp [setField, getField, hne, Ne.symm hne]
    · by_cases h2 : k = g
      · simp [setField, getField, h, h2, hne]
      · simp [setField, getField, h, h2, ih]

theorem lookupRecord_updateRecord_same
    (rs : List (String × List (String × String))) (id : String)
    (fs : List (String × String)) (h : (lookupRecord rs id).isSome) :
    lookupRecord (updateRecord rs id fs) id = some fs := by
  induction rs with
  | nil => simp [lookupRecord] at h
  | cons p rest ih =>
    obtain ⟨i, r⟩ := p
    by_cases hi : i = id
    · simp [updateRecord, lookupRecord, hi]
    · simp [updateRecord, lookupRecord, hi] at h ⊢
      exact ih h

theorem lookupRecord_updateRecord_other
    (rs : List (String × List (String × String))) (id j : String)
    (fs : List (String × String)) (hne : j ≠ id) :
    lookupRecord (updateRecord rs id fs) j = lookupRecord rs j := by
  induction rs with
  | nil => simp [updateRecord]
  | cons p rest ih =>
    obtain ⟨i, r⟩ := p
    by_cases hi : i = id
    · subst hi
      simp [updateRecord, lookupRecord, Ne.symm hne]
    · by_cases hj : i = j
      · simp [updateRecord, lookupRecord, hi, hj, hne]
      · simp [updateRecord, lookupRecord, hi, hj, ih]

end FOState

open FOState in
/-- C4: for an existing record X, `patch(X, F, value)` stores the new value
at field F, leaves every other field of X and every other record unchanged,
invalidates exactly the derivations whose read set contains (X, F), and
leaves a derivation that did not read (X, F) — e.g. one that read only
X.G — with its cached value intact. -/
theorem patch_invalidation_granularity (b : BridgeStore) (X F v : String)
    (fs : List (String × String)) (hX : lookupRecord b.records X = some fs) :
    lookupRecord (patchRecord b X F v).records X = some (setField fs F v) ∧
    getField (setField fs F v) F = some v ∧
    (∀ g, g ≠ F → getField (setField fs F v) g = getField fs g) ∧
    (∀ j, j ≠ X →
      lookupRecord (patchRecord b X F v).records j
        = lookupRecord b.records j) ∧
    (∀ (i : Nat) (d : DerivEntry), b.derivs[i]? = some d →
      (X, F) ∈ d.reads →
      (patchRecord b X F v).derivs[i]? = some ⟨d.reads, none⟩) ∧
    (∀ (i : Nat) (d : DerivEntry), b.derivs[i]? = some d →
      (X, F) ∉ d.reads →
      (patchRecord b X F v).derivs[i]? = some d) := by
  refine ⟨?_, getField_setField_same fs F v,
    fun g hg => getField_setField_other fs F v g hg, ?_, ?_, ?_⟩
  · simp only [patchRecord, hX]
    exact lookupRecord_updateRecord_same b.records X _ (by simp [hX])
  · intro j hj
    simp only [patchRecord, hX]
    exact lookupRecord_updateRecord_other b.records X j _ hj
  · intro i d hd hmem
    simp [patchRecord, hX, invalidateReaders, List.getElem?_map, hd, hmem]
  · intro i d hd hmem
    simp [patchRecord, hX, invalidateReaders, List.getElem?_map, hd, hmem]

open FOState in
/-- Witness for C4: patching field F of record x dirties the reader of
(x, F) and preserves the reader of (x, G) and the value of field G. -/
theorem patch_invalidation_granularity_witness :
    getField (setField [("F", "1"), ("G", "2")] "F" "9") "F" = some "9" ∧
    getField (setField [("F", "1"), ("G", "2")] "F" "9") "G"
      = getField [("F", "1"), ("G", "2")] "G" ∧
    (patchRecord
        ⟨[("x", [("F", "1"), ("G", "2")])],
          [⟨[("x", "F")], some "cf"⟩, ⟨[("x", "G")], some "cg"⟩]⟩
        "x" "F" "9").derivs[0]?
      = some ⟨[("x", "F")], none⟩ ∧
    (patchRecord
        ⟨[("x", [("F", "1"), ("G", "2")])],
          [⟨[("x", "F")], some "cf"⟩, ⟨[("x", "G")], some "cg"⟩]⟩
        "x" "F" "9").derivs[1]?
      = some ⟨[("x", "G")], some "cg"⟩ :=
  ⟨(patch_invalidation_granularity
      ⟨[("x", [("F", "1"), ("G", "2")])],
        [⟨[("x", "F")], some "cf"⟩, ⟨[("x", "G")], some "cg"⟩]⟩
      "x" "F" "9" [("F", "1"), ("G", "2")] (by decide)).2.1,
   (patch_invalidation_granularity
      ⟨[("x", [("F", "1"), ("G", "2")])],
        [⟨[("x", "F")], some "cf"⟩, ⟨[("x", "G")], some "cg"⟩]⟩
      "x" "F" "9" [("F", "1"), ("G", "2")] (by decide)).2.2.1 "G" (by decide),
   (patch_invalidation_granularity
      ⟨[("x", [("F", "1"), ("G", "2")])],
        [⟨[("x", "F")], some "cf"⟩, ⟨[("x", "G")], some "cg"⟩]⟩
      "x" "F" "9" [("F", "1"), ("G", "2")] (by decide)).2.2.2.2.1
      0 ⟨[("x", "F")], some "cf"⟩ rfl (by decide),
   (patch_invalidation_granularity
      ⟨[("x", [("F", "1"), ("G", "2")])],
        [⟨[("x", "F")], some "cf"⟩, ⟨[("x", "G")], some "cg"⟩]⟩
      "x" "F" "9" [("F", "1"), ("G", "2")] (by decide)).2.2.2.2.2
      1 ⟨[("x", "G")], some "cg"⟩ rfl (by decide)⟩

open FOState in
/-- C6: a patch whose record id is not in the canonical store is a no-op:
it is a total operation (no error) that returns the state unchanged — the
record store and every cached derivation value are untouched. -/
theorem patch_missing_record_noop (b : BridgeStore) (id f v : String)
    (h : lookupRecord b.records id = none) :
    patchRecord b id f v = b ∧
    (patchRecord b id f v).records = b.records ∧
    (patchRecord b id f v).derivs = b.derivs := by
  have h1 : patchRecord b id f v = b := by simp [patchRecord, h]
  exact ⟨h1, by rw [h1], by rw [h1]⟩

open FOState in
/-- Witness for C6: patching unknown record id "y" leaves the store alone. -/
theorem patch_missing_record_noop_witness :
    patchRecord
        ⟨[("x", [("F", "1")])], [⟨[("x", "F")], some "cf"⟩]⟩ "y" "F" "9"
      = ⟨[("x", [("F", "1")])], [⟨[("x", "F")], some "cf"⟩]⟩ ∧
    (patchRecord
        ⟨[("x", [("F", "1")])], [⟨[("x", "F")], some "cf"⟩]⟩
        "y" "F" "9").records
      = [("x", [("F", "1")])] ∧
    (patchRecord
        ⟨[("x", [("F", "1")])], [⟨[("x", "F")], some "cf"⟩]⟩
        "y" "F" "9").derivs
      = [⟨[("x", "F")], some "cf"⟩] :=
  patch_missing_record_noop
    ⟨[("x", [("F", "1")])], [⟨[("x", "F")], some "cf"⟩]⟩ "y" "F" "9"
    (by decide)

namespace FOState

/-- Modelled from the spec: a static dependency graph over `k` derivation
nodes — the nodes each body reads, and the pure value it computes when all
its reads succeed. -/
structure DepGraph (k : Nat) where
  deps : Fin k → List (Fin k)
  value : Fin k → Nat

/-- The engine's cycle error: reading a node already in "computing"
status. -/
inductive EvalErr (k : Nat) where
  | cycle (n : Fin k)
deriving DecidableEq, Repr

mutual
/-- Modelled from the spec: the recompute protocol.  `stack` is the set of
nodes currently in "computing" status; reading a node already in that set
fails immediately with a cycle error, otherwise the node enters the set and
its reads are evaluated.  Totality of this definition is the
no-hang/no-unbounded-recursion guarantee. -/
def evalNode {k : Nat} (g : DepGraph k) (stack : Finset (Fin k))
    (n : Fin k) : Except (EvalErr k) Nat :=
  if h : n ∈ stack then .error (.cycle n)
  else
    match evalDeps g (insert n stack) (g.deps n) with
    | .error e => .error e
    | .ok _ => .ok (g.value n)
termination_by (k - stack.card, 0)
decreasing_by
  have hne : stack ≠ Finset.univ := fun heq => h (heq ▸ Finset.mem_univ n)
  have hlt : stack.card < k := by
    simpa using Finset.card_lt_card (Finset.ssubset_univ_iff.mpr hne)
  apply Prod.Lex.left
  rw [Finset.card_insert_of_not_mem h]
  omega

/-- Evaluate the reads of a body in order, stopping at the first error. -/
def evalDeps {k : Nat} (g : DepGraph k) (stack : Finset (Fin k)) :
    List (Fin k) → Except (EvalErr k) Unit
  | [] => .ok ()
  | d :: rest =>
    match evalNode g stack d with
    | .error e => .error e
    | .ok _ => evalDeps g stack rest
termination_by l => (k - stack.card, l.length + 1)
end


/-- Reading a node already in "computing" status fails immediately with a
cycle error naming that node. -/
theorem evalNode_mem {k : Nat} (g : DepGraph k) (stack : Finset (Fin k))
    (n : Fin k) (h : n ∈ stack) :
    evalNode g stack n = .error (.cycle n) := by
  unfold evalNode
  simp [h]

/-- Unfolding of `evalNode` for a node not currently computing. -/
theorem evalNode_not_mem {k : Nat} (g : DepGraph k) (stack : Finset (Fin k))
    (n : Fin k) (h : n ∉ stack) :
    evalNode g stack n
      = match evalDeps g (insert n stack) (g.deps n) with
        | .error e => .error e
        | .ok _ => .ok (g.value n) := by
  unfold evalNode
  simp [h]

/-- If some read in the list fails with a cycle error, the whole
dependency evaluation fails with a cycle error. -/
theorem evalDeps_cycle_of_mem {k : Nat} (g : DepGraph k)
    (stack : Finset (Fin k)) (l : List (Fin k)) (d : Fin k) (hd : d ∈ l)
    (hc : ∃ c, evalNode g stack d = .error (.cycle c)) :
    ∃ c, evalDeps g stack l = .error (.cycle c) := by
  induction l with
  | nil => cases hd
  | cons x rest ih =>
    rcases List.mem_cons.mp hd with hx | hx
    · subst hx
      obtain ⟨c, hc⟩ := hc
      refine ⟨c, ?_⟩
      unfold evalDeps
      rw [hc]
    · cases hx2 : evalNode g stack x with
      | error e =>
        cases e with
        | cycle c =>
          refine ⟨c, ?_⟩
          unfold evalDeps
          rw [hx2]
      | ok u =>
        obtain ⟨c, hrest⟩ := ih hx
        refine ⟨c, ?_⟩
        unfold evalDeps
        rw [hx2, hrest]

/-- A derivation transitively reads another: a nonempty read path in the
dependency graph. -/
inductive ReadsTrans {k : Nat} (g : DepGraph k) : Fin k → Fin k → Prop where
  | direct {n m : Fin k} (h : m ∈ g.deps n) : ReadsTrans g n m
  | step {n m p : Fin k} (h : m ∈ g.deps n) (rest : ReadsTrans g m p) :
      ReadsTrans g n p

/-- Evaluating a node that transitively reads a node of the (grown)
computing set fails with a cycle error. -/
theorem evalNode_cycle_of_reaches_stack {k : Nat} (g : DepGraph k)
    (m s : Fin k) (hr : ReadsTrans g m s) :
    ∀ stack : Finset (Fin k), s ∈ insert m stack →
      ∃ c, evalNode g stack m = .error (.cycle c) := by
  induction hr with
  | @direct n m h =>
    intro stack hs
    by_cases hm : n ∈ stack
    · exact ⟨n, evalNode_mem g stack n hm⟩
    · obtain ⟨c, hc⟩ := evalDeps_cycle_of_mem g (insert n stack) (g.deps n) m h
        ⟨m, evalNode_mem g (insert n stack) m hs⟩
      refine ⟨c, ?_⟩
      rw [evalNode_not_mem g stack n hm, hc]
  | @step n m p h rest ih =>
    intro stack hs
    by_cases hm : n ∈ stack
    · exact ⟨n, evalNode_mem g stack n hm⟩
    · have hp : p ∈ insert m (insert n stack) := Finset.mem_insert_of_mem hs
      obtain ⟨c, hc⟩ := evalDeps_cycle_of_mem g (insert n stack) (g.deps n) m h
        (ih (insert n stack) hp)
      refine ⟨c, ?_⟩
      rw [evalNode_not_mem g stack n hm, hc]

end FOState

open FOState in
/-- C8: evaluation is a total function (no hang, no unbounded recursion);
reading a node already in "computing" status fails immediately with a cycle
error; and the first evaluation of any derivation that transitively reads
itself fails with a cycle error. -/
theorem cycle_detected_first_eval {k : Nat} (g : DepGraph k) (n : Fin k)
    (h : ReadsTrans g n n) :
    (∀ (stack : Finset (Fin k)) (m : Fin k), m ∈ stack →
      evalNode g stack m = .error (.cycle m)) ∧
    ∃ c, evalNode g ∅ n = .error (.cycle c) :=
  ⟨fun stack m hm => evalNode_mem g stack m hm,
   evalNode_cycle_of_reaches_stack g n n h ∅ (Finset.mem_insert_self n ∅)⟩

open FOState in
/-- A one-node graph whose single derivation reads itself. -/
def selfLoopGraph : DepGraph 1 :=
  ⟨fun _ => [0], fun _ => 7⟩

open FOState in
/-- Witness for C8: the self-reading derivation errors with a cycle on its
first evaluation, and a read of a computing node errors immediately. -/
theorem cycle_detected_first_eval_witness :
    evalNode selfLoopGraph {0} 0 = .error (.cycle 0) ∧
    ∃ c, evalNode selfLoopGraph ∅ (0 : Fin 1) = .error (.cycle c) :=
  ⟨(cycle_detected_first_eval selfLoopGraph 0
      (.direct (by simp [selfLoopGraph]))).1 {0} 0 (Finset.mem_singleton_self 0),
   (cycle_detected_first_eval selfLoopGraph 0
      (.direct (by simp [selfLoopGraph]))).2⟩


namespace FOState

/-- A hydrated cell value by declared value class (the classes of
`getBrowserStorageEffectForKey`, used e.g. by
`groupMediaIsCarouselVisibleSetting` with `valueClass: "boolean"`). -/
inductive JSValue where
  | bool (b : Bool)
  | str (s : String)
  | num (n : Int)
  | structured (xs : List String)
deriving DecidableEq, Repr

/-- The declared value class of a persisted cell. -/
inductive ValueClass where
  | boolean
  | string
  | number
  | structured
deriving DecidableEq, Repr

/-- The value class a hydrated value belongs to. -/
def classOf : JSValue → ValueClass
  | .bool _ => .boolean
  | .str _ => .string
  | .num _ => .number
  | .structured _ => .structured

/-- Parse one JSON string literal (`"…"`). -/
def parseQuoted (s : String) : Option String :=
  if 2 ≤ s.length ∧ s.startsWith "\"" ∧ s.endsWith "\"" then
    some ((s.drop 1).dropRight 1)
  else
    none

/-- Parse a JSON array of string literals. -/
def parseStringArray (s : String) : Option (List String) :=
  if s.startsWith "[" ∧ s.endsWith "]" ∧ 2 ≤ s.length then
    let inner := (s.drop 1).dropRight 1
    if inner = "" then some [] else (inner.splitOn ",").mapM parseQuoted
  else
    none

/-- Modelled from the spec: decode a raw persisted string against the
cell's declared value class; `none` is a decode failure (corrupt or
mismatched data). -/
def decodeStored : ValueClass → String → Option JSValue
  | .boolean, s =>
    if s = "true" then some (.bool true)
    else if s = "false" then some (.bool false)
    else none
  | .number, s => (s.toInt?).map .num
  | .string, s => some (.str s)
  | .structured, s => (parseStringArray s).map .structured

/-- Modelled from the spec: initialization of a cell with a persistence
effect — use the stored value when it exists and decodes to the declared
value class, otherwise fall back to the declared default.  A total
function: decode failure never throws. -/
def hydrate (vc : ValueClass) (dflt : JSValue) (stored : Option String) :
    JSValue :=
  match stored with
  | none => dflt
  | some s =>
    match decodeStored vc s with
    | some v => v
    | none => dflt

/-- A successful decode always produces a value of the declared class. -/
theorem decodeStored_classOf (vc : ValueClass) (s : String) (v : JSValue)
    (h : decodeStored vc s = some v) : classOf v = vc := by
  cases vc with
  | boolean =>
    by_cases h1 : s = "true"
    · simp [decodeStored, h1] at h
      simp [← h, classOf]
    · by_cases h2 : s = "false"
      · simp [decodeStored, h1, h2] at h
        simp [← h, classOf]
      · simp [decodeStored, h1, h2] at h
  | number =>
    simp [decodeStored] at h
    obtain ⟨n, _, hv⟩ := h
    simp [← hv, classOf]
  | string =>
    simp [decodeStored] at h
    simp [← h, classOf]
  | structured =>
    simp [decodeStored] at h
    obtain ⟨xs, _, hv⟩ := h
    simp [← hv, classOf]

end FOState

open FOState in
/-- C9: hydration of a persisted cell never throws and follows the spec's
rule — a missing stored value yields the declared default; a stored value
that decodes under the declared value class is used as the initial value
(and is of that class); an invalid or corrupt stored value falls back to
the declared default. -/
theorem persistence_hydration_fallback (vc : ValueClass) (dflt : JSValue)
    (s : String) :
    hydrate vc dflt none = dflt ∧
    (∀ v, decodeStored vc s = some v →
      hydrate vc dflt (some s) = v ∧ classOf v = vc) ∧
    (decodeStored vc s = none → hydrate vc dflt (some s) = dflt) := by
  refine ⟨rfl, ?_, ?_⟩
  · intro v hv
    exact ⟨by simp [hydrate, hv], decodeStored_classOf vc s v hv⟩
  · intro hv
    simp [hydrate, hv]

open FOState in
/-- Witness for C9 on the carousel-visibility setting (`valueClass:
"boolean"`, default `true`): a valid stored `"false"` is used, a corrupt
stored `"xyz"` falls back to the default. -/
theorem persistence_hydration_fallback_witness :
    hydrate .boolean (.bool true) (some "false") = .bool false ∧
    hydrate .boolean (.bool true) (some "xyz") = .bool true :=
  ⟨((persistence_hydration_fallback .boolean (.bool true) "false").2.1
      (.bool false) (by decide)).1,
   (persistence_hydration_fallback .boolean (.bool true) "xyz").2.2 (by decide)⟩
